import Mathlib

/-!
Verification development for the google-ads-mcp repository.

The GAQL translation layer of `src/google_ads_mcp/tools/gaql.py` and the
helpers of `src/google_ads_mcp/auth.py` are embedded shallowly: Python
strings become `String` (manipulated through `List Char`), Python dicts
with insertion order become association lists, the Google Ads remote
collaborators become explicit parameters, and `json.dumps` output becomes
a structured JSON value type.  All definitions are executable and use
fuel-based or structural recursion so that concrete inputs evaluate
inside the kernel.
-/

/-! ## Character classes (models of Python `\s`, `\w`, `str.isdigit` over ASCII) -/

/-- Python whitespace class `\s` restricted to ASCII, as used by `re` and
`str.strip` on the ASCII queries this layer handles. -/
def isSpace (c : Char) : Bool :=
  c = ' ' || c = '\t' || c = '\n' || c = '\r' || c = '\x0b' || c = '\x0c'

/-- Python word class `\w` restricted to ASCII. -/
def isWordChar (c : Char) : Bool :=
  c.isAlphanum || c = '_'

/-! ## Substring containment and replacement (models of Python `in` and `str.replace`) -/

/-- Python `pat in s` on character lists. -/
def containsSub (s pat : List Char) : Bool :=
  match s with
  | [] => pat.isEmpty
  | c :: rest => pat.isPrefixOf (c :: rest) || containsSub rest pat

/-- Python `s.replace(pat, rep)` (all occurrences, left to right,
non-overlapping), with fuel; `s.length` fuel is exact because every
replacement consumes at least one character of a non-empty pattern.
(Python's behaviour for an empty pattern is not modelled; the source never
replaces an empty pattern.) -/
def replaceAllAux : Nat → List Char → List Char → List Char → List Char
  | 0, s, _, _ => s
  | Nat.succ n, s, pat, rep =>
    match s with
    | [] => []
    | c :: s' =>
      if !pat.isEmpty && pat.isPrefixOf (c :: s') then
        rep ++ replaceAllAux n ((c :: s').drop pat.length) pat rep
      else
        c :: replaceAllAux n s' pat rep

/-- Python `s.replace(pat, rep)` on `String`. -/
def pyReplace (s pat rep : String) : String :=
  String.mk (replaceAllAux s.toList.length s.toList pat.toList rep.toList)

/-- Python `s.strip()` on a character list. -/
def pyStrip (l : List Char) : List Char :=
  ((l.dropWhile isSpace).reverse.dropWhile isSpace).reverse

/-- Python `s.strip()` on `String`. -/
def pyStripStr (s : String) : String :=
  String.mk (pyStrip s.toList)

/-- Python `s.upper()` (ASCII). -/
def strUpper (s : String) : String :=
  String.mk (s.toList.map Char.toUpper)

/-- Python `s.lower()` (ASCII). -/
def strLower (s : String) : String :=
  String.mk (s.toList.map Char.toLower)

/-- Python `s.startswith(pat)`. -/
def strStartsWith (s pat : String) : Bool :=
  pat.toList.isPrefixOf s.toList

/-- Python `pat in s` on `String`. -/
def strContains (s pat : String) : Bool :=
  containsSub s.toList pat.toList

/-! ## The date-filter rewriter's regular expression

`gaql.py` line 21: `pattern = r'segments\.date\s*=\s*(YESTERDAY|TODAY|LAST_\w+_?\w*)'`
matched with `re.findall(pattern, fixed_query, re.IGNORECASE)`.
The pattern is backtracking-free in the relevant places: `\s*` is always
followed by a non-whitespace requirement (`=` or a keyword letter), so
maximal-munch whitespace is equivalent, and the ordered alternation tries
`YESTERDAY`, then `TODAY`, then `LAST_` followed by a maximal non-empty
`\w` run (`\w+` is greedy and the trailing `_?\w*` matches empty). -/

/-- Match `lit` case-insensitively at the head of `s`; on success return the
matched original-case characters together with the remainder. -/
def matchCIKeep : List Char → List Char → Option (List Char × List Char)
  | [], s => some ([], s)
  | _ :: _, [] => none
  | l :: ls, c :: cs =>
    if l.toLower == c.toLower then
      (matchCIKeep ls cs).map (fun p => (c :: p.1, p.2))
    else
      none

/-- One attempted match of the date pattern at the start of `s`: on success,
the capture group (in original case, as `re.findall` reports it) and the
remainder of the input after the whole match. -/
def matchDateAt (s : List Char) : Option (List Char × List Char) :=
  match matchCIKeep ("segments.date".toList) s with
  | none => none
  | some (_, s1) =>
    match s1.dropWhile isSpace with
    | [] => none
    | c :: s3 =>
      if c = '=' then
        let s4 := s3.dropWhile isSpace
        match matchCIKeep ("YESTERDAY".toList) s4 with
        | some (g, rest) => some (g, rest)
        | none =>
          match matchCIKeep ("TODAY".toList) s4 with
          | some (g, rest) => some (g, rest)
          | none =>
            match matchCIKeep ("LAST_".toList) s4 with
            | some (g5, rest5) =>
              let run := rest5.takeWhile isWordChar
              if run.isEmpty then none
              else some (g5 ++ run, rest5.drop run.length)
            | none => none
      else none

/-- `re.findall` scan: leftmost match, then continue after its end.  Fuel
`s.length` is exact because every match consumes at least the 13 characters
of `segments.date`. -/
def dateFindallAux : Nat → List Char → List (List Char)
  | 0, _ => []
  | Nat.succ n, s =>
    match s with
    | [] => []
    | c :: rest =>
      match matchDateAt (c :: rest) with
      | some (g, after) => g :: dateFindallAux n after
      | none => dateFindallAux n rest

/-- All capture groups of the date pattern in `s`, in order (`re.findall`). -/
def dateFindall (s : List Char) : List (List Char) :=
  dateFindallAux s.length s

/-! ## detect_and_fix_date_formats (gaql.py lines 15-34) -/

/-- One fix record appended per regex match (gaql.py lines 28-32). -/
structure FixRecord where
  type : String
  message : String
  reason : String
deriving DecidableEq, Repr

/-- The body of the `for match in matches` loop (gaql.py lines 24-32):
a literal, case-sensitive `str.replace` of `'segments.date = {match}'`
(single spaces, lowercase field name), plus one appended fix record. -/
def applyDateFix (acc : String × List FixRecord) (m : List Char) : String × List FixRecord :=
  let old_pattern := "segments.date = " ++ String.mk m
  let new_pattern := "segments.date DURING " ++ String.mk m
  (pyReplace acc.1 old_pattern new_pattern,
   acc.2 ++ [FixRecord.mk "auto_fix"
     ("Converted \x27" ++ old_pattern ++ "\x27 to \x27" ++ new_pattern ++ "\x27")
     "Date equality with keywords requires DURING operator"])

/-- `detect_and_fix_date_formats` (gaql.py lines 15-34). -/
def detect_and_fix_date_formats (query : String) : String × List FixRecord :=
  (dateFindall query.toList).foldl applyDateFix (query, [])

/-! ## parse_select_fields (gaql.py lines 37-66)

`re.search(r'SELECT\s+(.*?)\s+FROM', query, re.IGNORECASE | re.DOTALL)`:
leftmost position where `SELECT` matches case-insensitively, then greedy
`\s+` (backtracking from the maximal whitespace run down to one
character), then the lazy group growing from empty, then `\s+FROM`.
In `\s+FROM` only the maximal whitespace run can succeed, because `F`
is not whitespace. -/

/-- `\s+FROM` at the head of `s` (case-insensitive). -/
def wsFrom (s : List Char) : Bool :=
  match s with
  | [] => false
  | c :: _ =>
    isSpace c && (matchCIKeep ("FROM".toList) (s.dropWhile isSpace)).isSome

/-- The lazy group `(.*?)\s+FROM`: the shortest prefix of `s` after which
`\s+FROM` matches, if any (DOTALL: the group may span newlines). -/
def lazyGroup : List Char → Option (List Char)
  | [] => none
  | c :: rest =>
    if wsFrom (c :: rest) then some []
    else (lazyGroup rest).map (fun g => c :: g)

/-- Greedy `\s+` after `SELECT`: try consuming `k` whitespace characters of
`rest` for `k` from the maximal run down to `1`, first success wins. -/
def trySelectGap : Nat → List Char → Option (List Char)
  | 0, _ => none
  | Nat.succ k, rest =>
    match lazyGroup (rest.drop (k + 1)) with
    | some g => some g
    | none => trySelectGap k rest

/-- Whole-pattern match attempt anchored at the start of `s`. -/
def matchSelectHere (s : List Char) : Option (List Char) :=
  match matchCIKeep ("SELECT".toList) s with
  | none => none
  | some (_, rest) => trySelectGap (rest.takeWhile isSpace).length rest

/-- `re.search`: try every start position left to right. -/
def searchSelect : List Char → Option (List Char)
  | [] => none
  | c :: rest =>
    match matchSelectHere (c :: rest) with
    | some g => some g
    | none => searchSelect rest

/-- Python `s.split(',')` (every comma, no merging of empty pieces). -/
def splitOnComma (s : List Char) : List (List Char) :=
  match s with
  | [] => [[]]
  | c :: rest =>
    if c = ',' then [] :: splitOnComma rest
    else
      match splitOnComma rest with
      | [] => [[c]]
      | t :: ts => (c :: t) :: ts

/-- Python `field.split('.', 1)`: the part before the first dot and the part
after it (for input known to contain a dot). -/
def splitFirstDot : List Char → List Char × List Char
  | [] => ([], [])
  | c :: rest =>
    if c = '.' then ([], rest)
    else
      let p := splitFirstDot rest
      (c :: p.1, p.2)

/-- The stripped comma-separated field tokens of the SELECT clause
(gaql.py lines 47-53); `[]` when the `SELECT ... FROM` span is absent. -/
def selectTokens (query : String) : List (List Char) :=
  match searchSelect query.toList with
  | none => []
  | some clause => (splitOnComma clause).map pyStrip

/-- Python dict accumulation `entities[entity].append(attribute)` with
insertion-ordered keys (gaql.py lines 62-64). -/
def insertField (entities : List (String × List String)) (entity attr : String) :
    List (String × List String) :=
  match entities with
  | [] => [(entity, [attr])]
  | (k, v) :: rest =>
    if k == entity then (k, v ++ [attr]) :: rest
    else (k, v) :: insertField rest entity attr

/-- The body of the `for field in fields` loop (gaql.py lines 57-64):
tokens without a dot are dropped, the others are split on the first dot. -/
def parseFieldStep (acc : List (String × List String)) (f : List Char) :
    List (String × List String) :=
  if f.contains '.' then
    insertField acc (String.mk (splitFirstDot f).1) (String.mk (splitFirstDot f).2)
  else acc

/-- `parse_select_fields` (gaql.py lines 37-66); the returned Python dict is
modelled as an insertion-ordered association list. -/
def parse_select_fields (query : String) : List (String × List String) :=
  (selectTokens query).foldl parseFieldStep []

/-! Spec-side description of the grouping, for the refinement half of C3:
each entity appears at its first-appearance position carrying all its
attributes in appearance order. -/

/-- The entity/attribute pairs of the dotted tokens, in token order. -/
def dottedPairs (ts : List (List Char)) : List (String × String) :=
  (ts.filter (fun t => t.contains '.')).map
    (fun t => (String.mk (splitFirstDot t).1, String.mk (splitFirstDot t).2))

/-- Group pairs by first component, keeping first-appearance order of keys
and appearance order of values (fuelled; `ps.length` fuel is exact). -/
def groupPairsAux : Nat → List (String × String) → List (String × List String)
  | 0, _ => []
  | Nat.succ _, [] => []
  | Nat.succ n, (e, a) :: rest =>
    (e, a :: (rest.filter (fun p => p.1 == e)).map Prod.snd) ::
      groupPairsAux n (rest.filter (fun p => !(p.1 == e)))

/-- The Field Projection Map as the spec words it (section 3 and 4.1 of the
spec): entities in first-appearance order, attributes in appearance order. -/
def parse_select_fields_spec (query : String) : List (String × List String) :=
  groupPairsAux (dottedPairs (selectTokens query)).length (dottedPairs (selectTokens query))

/-! ## auth.py: validate_gaql_query (lines 90-111) and format_customer_id (lines 65-87) -/

/-- `validate_gaql_query` (auth.py lines 90-111): non-empty, `upper().strip()`
starts with `SELECT`, and contains `FROM`. -/
def validate_gaql_query (query : String) : Bool :=
  if query == "" then false
  else
    let query_upper := pyStripStr (strUpper query)
    if !(strStartsWith query_upper "SELECT") then false
    else if !(strContains query_upper "FROM") then false
    else true

/-- Python `s.isdigit()` over ASCII: non-empty and all decimal digits. -/
def pyIsDigitList (l : List Char) : Bool :=
  !l.isEmpty && l.all Char.isDigit

/-- `format_customer_id` (auth.py lines 65-87); the raised `ValueError` is
modelled as `Except.error` carrying the exception message.  Note the code
removes only `'-'` and the plain space `' '` (auth.py line 81). -/
def format_customer_id (customer_id : String) : Except String String :=
  if customer_id == "" then
    Except.error "Customer ID cannot be empty"
  else
    let clean_id := pyReplace (pyReplace customer_id "-" "") " " ""
    if !(pyIsDigitList clean_id.toList) || clean_id.toList.length != 10 then
      Except.error ("Customer ID must be exactly 10 digits, got: " ++ customer_id)
    else
      Except.ok clean_id

/-- The cleaned identifier as the claim words it: the input with dashes and
whitespace characters removed (a claim-side definition, compared with the
code's `replace`-based cleaning). -/
def claimCleanId (s : String) : List Char :=
  s.toList.filter (fun c => !(c == '-' || isSpace c))

/-- The code-side cleaned identifier restated by filtering: removal of `'-'`
and of the plain space only. -/
def codeCleanId (s : String) : List Char :=
  s.toList.filter (fun c => !(c == '-' || c == ' '))

/-! ## preprocess_gaql_query (gaql.py lines 228-291) -/

/-- One advisory suggestion (type, message, remediation). -/
structure Suggestion where
  type : String
  message : String
  suggestion : String
deriving DecidableEq, Repr

/-- The advisory envelope of the success shape (gaql.py lines 277-283). -/
structure PreprocessEnvelope where
  original_query : String
  optimized_query : String
  is_valid : Bool
  suggestions : List Suggestion
  suggestion_count : Nat
deriving DecidableEq, Repr

/-- The error envelope of `preprocess_gaql_query` (gaql.py lines 241-244). -/
structure PreprocessError where
  error : String
  original_query : String
deriving DecidableEq, Repr

/-- Check 1's suggestion (gaql.py lines 251-255). -/
def limitSuggestion : Suggestion :=
  ⟨"performance",
   "Consider adding a LIMIT clause to prevent large result sets",
   "Add \x27LIMIT 1000\x27 to your query"⟩

/-- Check 2's suggestion (gaql.py lines 259-263). -/
def dateRangeSuggestion : Suggestion :=
  ⟨"performance",
   "When using segments.date, consider adding a date range filter",
   "Add \x27WHERE segments.date DURING LAST_30_DAYS\x27 to your query"⟩

/-- Check 3's suggestion (gaql.py lines 271-275). -/
def metricsSuggestion : Suggestion :=
  ⟨"performance",
   "Performance metrics should be filtered to improve query speed",
   "Add WHERE conditions to filter your data"⟩

/-- The fixed list of expensive metrics (gaql.py line 266). -/
def expensive_metrics : List String :=
  ["metrics.impressions", "metrics.clicks", "metrics.cost_micros"]

/-- `preprocess_gaql_query` (gaql.py lines 228-291).  The body of the `try`
block is exception-free for a validated query, so the generic handler of
lines 285-290 is unreachable and the result is the success envelope. -/
def preprocess_gaql_query (query : String) : Except PreprocessError PreprocessEnvelope :=
  if !(validate_gaql_query query) then
    Except.error ⟨"Invalid GAQL query format", query⟩
  else
    let optimized_query := pyStripStr query
    let s1 :=
      if !(strContains (strUpper optimized_query) "LIMIT") then [limitSuggestion] else []
    let s2 :=
      if strContains (strLower optimized_query) "segments.date"
          && !(strContains (strUpper optimized_query) "DURING") then
        [dateRangeSuggestion]
      else []
    let s3 :=
      if expensive_metrics.any (fun m => strContains (strLower optimized_query) m)
          && !(strContains (strUpper optimized_query) "WHERE") then
        [metricsSuggestion]
      else []
    let suggestions := s1 ++ s2 ++ s3
    Except.ok ⟨query, optimized_query, true, suggestions, suggestions.length⟩


/-! ## _convert_protobuf_value (gaql.py lines 69-92)

The universe of values the converter receives from the Google Ads response
objects: protobuf messages (which expose `__dict__` and `DESCRIPTOR`),
scalar primitives, enum values (which expose `.name`), repeated containers,
raw bytes, and anything else.  `str(value)` of the library containers is
modelled by `pyFallbackStr`. -/

inductive PValue where
  | pmsg (fields : List (String × PValue))
  | pstr (s : String)
  | pint (n : Int)
  | pfloat (q : Rat)
  | pbool (b : Bool)
  | penum (name : String) (number : Int)
  | prepeated (items : List PValue)
  | pbytes (bs : List Nat)
  | pother (text : String)
deriving Repr

/-- JSON values as `json.dumps` receives them after conversion. -/
inductive JValue where
  | jnull
  | jbool (b : Bool)
  | jint (n : Int)
  | jfloat (q : Rat)
  | jstr (s : String)
  | jarr (items : List JValue)
  | jobj (fields : List (String × JValue))
deriving Repr

/-- Model of CPython `str(value)` for values that reach the final fallback
branch of `_convert_protobuf_value` (no `__dict__`, not a scalar, no
`.name`): an opaque but deterministic textual rendering. -/
def pyFallbackStr : PValue → String
  | .prepeated items => "repeated container of " ++ toString items.length ++ " elements"
  | .pbytes bs => "bytes of length " ++ toString bs.length
  | .pother text => text
  | _ => ""

mutual

/-- `_convert_protobuf_value` (gaql.py lines 69-92), branch for branch:
a message (`hasattr(value, '__dict__')`) walks its descriptor fields,
treating an iterable non-text field value as a repeated field; scalars pass
through; a value exposing `.name` yields the symbolic name; anything else
falls back to `str(value)`. -/
def _convert_protobuf_value : PValue → JValue
  | .pmsg fields => .jobj (convertMsgFields fields)
  | .pstr s => .jstr s
  | .pint n => .jint n
  | .pfloat q => .jfloat q
  | .pbool b => .jbool b
  | .penum name _ => .jstr name
  | .prepeated items => .jstr (pyFallbackStr (.prepeated items))
  | .pbytes bs => .jstr (pyFallbackStr (.pbytes bs))
  | .pother text => .jstr (pyFallbackStr (.pother text))

/-- The `for field in value.DESCRIPTOR.fields` loop (gaql.py lines 74-83). -/
def convertMsgFields : List (String × PValue) → List (String × JValue)
  | [] => []
  | (n, v) :: rest => (n, convertFieldValue v) :: convertMsgFields rest

/-- One field value inside a message: the
`hasattr(field_value, '__iter__') and not isinstance(field_value, (str, bytes))`
test (gaql.py line 79) sends repeated containers to the element-wise branch
and everything else back to the converter. -/
def convertFieldValue : PValue → JValue
  | .prepeated items => .jarr (convertItems items)
  | .pmsg fields => _convert_protobuf_value (.pmsg fields)
  | .pstr s => _convert_protobuf_value (.pstr s)
  | .pint n => _convert_protobuf_value (.pint n)
  | .pfloat q => _convert_protobuf_value (.pfloat q)
  | .pbool b => _convert_protobuf_value (.pbool b)
  | .penum name number => _convert_protobuf_value (.penum name number)
  | .pbytes bs => _convert_protobuf_value (.pbytes bs)
  | .pother text => _convert_protobuf_value (.pother text)

/-- The list comprehension of gaql.py line 81. -/
def convertItems : List PValue → List JValue
  | [] => []
  | v :: vs => _convert_protobuf_value v :: convertItems vs

end

mutual

/-- A total JSON serializer for `JValue` (the shape `json.dumps` consumes):
its totality is the formal content of "the result is always
JSON-serializable". -/
def serializeJson : JValue → String
  | .jnull => "null"
  | .jbool b => if b then "true" else "false"
  | .jint n => toString n
  | .jfloat q => toString q
  | .jstr s => "\x22" ++ s ++ "\x22"
  | .jarr items => "[" ++ serializeJsonItems items ++ "]"
  | .jobj fields => "\x7b" ++ serializeJsonFields fields ++ "\x7d"

/-- Comma-joined serialized array elements. -/
def serializeJsonItems : List JValue → String
  | [] => ""
  | [v] => serializeJson v
  | v :: vs => serializeJson v ++ ", " ++ serializeJsonItems vs

/-- Comma-joined serialized object members. -/
def serializeJsonFields : List (String × JValue) → String
  | [] => ""
  | [(n, v)] => "\x22" ++ n ++ "\x22: " ++ serializeJson v
  | (n, v) :: fs => "\x22" ++ n ++ "\x22: " ++ serializeJson v ++ ", " ++ serializeJsonFields fs

end

/-- The branch condition map of gaql.py lines 71-92: values whose shape
matches none of the earlier cases (no `__dict__`, not a scalar primitive,
no `.name`) reach the final `str(value)` fallback. -/
def isFallbackValue : PValue → Bool
  | .pmsg _ => false
  | .pstr _ => false
  | .pint _ => false
  | .pfloat _ => false
  | .pbool _ => false
  | .penum _ _ => false
  | .prepeated _ => true
  | .pbytes _ => true
  | .pother _ => true

/-! ## The response flattener (the row loop of gaql.py lines 135-151) -/

/-- One structured entity of a result row: its attributes by name
(`hasattr`/`getattr` become association-list lookup). -/
abbrev PEntity := List (String × PValue)

/-- One structured result row: its entities by name. -/
abbrev PRow := List (String × PEntity)

/-- Association-list lookup, the model of `hasattr`/`getattr`. -/
def lookupStr {α : Type} (l : List (String × α)) (k : String) : Option α :=
  match l with
  | [] => none
  | (k', v) :: rest => if k' == k then some v else lookupStr rest k

/-- Python dict assignment `d[k] = v`: overwrite in place, append if new. -/
def dictSet {α : Type} (d : List (String × α)) (k : String) (v : α) : List (String × α) :=
  match d with
  | [] => [(k, v)]
  | (k', v') :: rest =>
    if k' == k then (k, v) :: rest
    else (k', v') :: dictSet rest k v

/-- The body of the `for field_name in field_names` loop (gaql.py
lines 143-148): convert a present attribute, emit an explicit null for an
absent one. -/
def entityFieldStep (entity : PEntity) (acc : List (String × JValue)) (field_name : String) :
    List (String × JValue) :=
  match lookupStr entity field_name with
  | some value => dictSet acc field_name (_convert_protobuf_value value)
  | none => dictSet acc field_name JValue.jnull

/-- The `entity_dict` built for one present entity (gaql.py lines 142-148). -/
def flattenEntity (entity : PEntity) (field_names : List String) : List (String × JValue) :=
  field_names.foldl (entityFieldStep entity) []

/-- The body of the `for entity_name, field_names in requested_entities.items()`
loop (gaql.py lines 139-149): an entity absent on the row is skipped. -/
def rowEntityStep (row : PRow) (acc : List (String × JValue)) (p : String × List String) :
    List (String × JValue) :=
  match lookupStr row p.1 with
  | some entity => dictSet acc p.1 (JValue.jobj (flattenEntity entity p.2))
  | none => acc

/-- The flattened `result_dict` of one row (gaql.py lines 135-151). -/
def flattenRow (requested : List (String × List String)) (row : PRow) :
    List (String × JValue) :=
  requested.foldl (rowEntityStep row) []

/-! ## _execute_gaql_async (gaql.py lines 95-186)

The remote collaborators (`get_client()` and `GoogleAdsService.search`) are
external to this layer and are passed in explicitly.  The returned JSON
text is modelled as the ordered key/value object handed to `json.dumps`,
paired with a flag that records whether control reached the remote region
(client construction and the search call) — the "collaborator invocation
counter" of the spec's testable properties. -/

/-- One entry of `ex.failure.errors` as flattened in gaql.py lines 167-173. -/
structure AdsErrorItem where
  error_code : String
  message : String
  location : Option (List String)
deriving Repr

/-- What the remote `search` call does: return rows, raise a
`GoogleAdsException`, or raise anything else. -/
inductive SearchOutcome where
  | rows (rs : List PRow)
  | adsException (errors : List AdsErrorItem)
  | raised (msg : String)

/-- The external collaborators of the executor: `get_client()` (which may
raise, caught by the generic handler) and the search call. -/
structure Collab where
  getClient : Except String Unit
  search : SearchOutcome

/-- One flattened error detail (gaql.py lines 169-173). -/
def adsErrorToJson (e : AdsErrorItem) : JValue :=
  .jobj [("error_code", .jstr e.error_code), ("message", .jstr e.message),
         ("location", match e.location with
                      | some path => .jarr (path.map JValue.jstr)
                      | none => JValue.jnull)]

/-- One fix record as placed under `auto_fixes_applied`. -/
def fixToJson (f : FixRecord) : JValue :=
  .jobj [("type", .jstr f.type), ("message", .jstr f.message), ("reason", .jstr f.reason)]

/-- `_execute_gaql_async` (gaql.py lines 95-186).  The first component is
the JSON object serialized back to the caller; the second is `true` iff
control reached the remote region.  `ValueError` from
`format_customer_id` and any failure of `get_client`/`search` are caught
by the handlers of lines 166-186, exactly as in the source. -/
def _execute_gaql_async (query customer_id : String) (collab : Collab) :
    List (String × JValue) × Bool :=
  if !(validate_gaql_query query) then
    ([("error", .jstr "Invalid GAQL query format"), ("query", .jstr query)], false)
  else
    let fixed_query := (detect_and_fix_date_formats query).1
    let fixes := (detect_and_fix_date_formats query).2
    if customer_id == "" then
      ([("error", .jstr "customer_id is required")], false)
    else
      match format_customer_id customer_id with
      | Except.error msg =>
        ([("error", .jstr ("Failed to execute GAQL query: " ++ msg)),
          ("query", .jstr fixed_query)], false)
      | Except.ok formatted_customer_id =>
        match collab.getClient with
        | Except.error msg =>
          ([("error", .jstr ("Failed to execute GAQL query: " ++ msg)),
            ("query", .jstr fixed_query)], true)
        | Except.ok _ =>
          match collab.search with
          | SearchOutcome.raised msg =>
            ([("error", .jstr ("Failed to execute GAQL query: " ++ msg)),
              ("query", .jstr fixed_query)], true)
          | SearchOutcome.adsException errors =>
            ([("error", .jstr "Google Ads API error"),
              ("details", .jarr (errors.map adsErrorToJson)),
              ("query", .jstr fixed_query)], true)
          | SearchOutcome.rows rs =>
            let requested_entities := parse_select_fields fixed_query
            let results := rs.map (fun row => flattenRow requested_entities row)
            let base := [("query", .jstr fixed_query),
                         ("customer_id", .jstr formatted_customer_id),
                         ("total_results", .jint (results.length : Int)),
                         ("results", .jarr (results.map JValue.jobj))]
            (match fixes with
             | [] => base
             | _ :: _ => base ++ [("auto_fixes_applied", .jarr (fixes.map fixToJson))],
             true)

/-- The key list of a JSON object. -/
def jsonKeys (o : List (String × JValue)) : List String :=
  o.map Prod.fst

/-- One dict insertion for an entity/attribute pair (used to relate the
token fold of `parse_select_fields` with the spec-side grouping). -/
def insPair (acc : List (String × List String)) (p : String × String) :
    List (String × List String) :=
  insertField acc p.1 p.2

/-- The value written for one requested attribute: the converted attribute
when present, an explicit null when absent. -/
def entVal (entity : PEntity) (fn : String) : JValue :=
  match lookupStr entity fn with
  | some v => _convert_protobuf_value v
  | none => JValue.jnull

/-- The error shape of the Response Envelope: an `error` key, only
`error`/`details`/`query` keys, and none of the success-only keys. -/
def errorShape (ks : List String) : Prop :=
  "error" ∈ ks ∧ (∀ k ∈ ks, k = "error" ∨ k = "details" ∨ k = "query") ∧
  "customer_id" ∉ ks ∧ "total_results" ∉ ks ∧ "results" ∉ ks ∧ "auto_fixes_applied" ∉ ks

/-- The success shape of the Response Envelope: the four mandatory keys and
no `error` key. -/
def successShape (ks : List String) : Prop :=
  "error" ∉ ks ∧ "query" ∈ ks ∧ "customer_id" ∈ ks ∧ "total_results" ∈ ks ∧ "results" ∈ ks

/-! ## Lemmas about substring containment and replacement -/

/-- A list is a `isPrefixOf`-prefix of itself followed by anything. -/
theorem isPrefixOf_append_self (l t : List Char) : l.isPrefixOf (l ++ t) = true := by
  induction l with
  | nil => simp [List.isPrefixOf]
  | cons c cs ih => simp [List.isPrefixOf, ih]

/-- The empty pattern is contained everywhere (as in Python). -/
theorem containsSub_nil (s : List Char) : containsSub s [] = true := by
  cases s <;> simp [containsSub, List.isPrefixOf]

/-- A list contains its own prefix. -/
theorem containsSub_append_self (rep t : List Char) : containsSub (rep ++ t) rep = true := by
  cases rep with
  | nil => exact containsSub_nil t
  | cons c r => simp [containsSub, isPrefixOf_append_self]

/-- Containment is preserved by consing a character in front. -/
theorem containsSub_cons (c : Char) (s pat : List Char) (h : containsSub s pat = true) :
    containsSub (c :: s) pat = true := by
  simp [containsSub, h]

/-- If the pattern occurs in `s`, the replacement occurs in the output of
`replaceAllAux` (with enough fuel). -/
theorem replaceAll_contains (n : Nat) (s pat rep : List Char) (hn : s.length ≤ n)
    (hpat : pat ≠ []) (h : containsSub s pat = true) :
    containsSub (replaceAllAux n s pat rep) rep = true := by
  induction n generalizing s with
  | zero =>
    have hs : s = [] := List.length_eq_zero.mp (Nat.le_zero.mp hn)
    subst hs
    simp [containsSub, List.isEmpty_iff] at h
    exact absurd h hpat
  | succ n ih =>
    cases s with
    | nil =>
      simp [containsSub, List.isEmpty_iff] at h
      exact absurd h hpat
    | cons c s' =>
      by_cases hp : (!pat.isEmpty && pat.isPrefixOf (c :: s')) = true
      · simp only [replaceAllAux, hp, if_true]
        exact containsSub_append_self rep _
      · simp only [replaceAllAux, hp, if_false]
        have hne : pat.isEmpty = false := by
          cases hpe : pat.isEmpty
          · rfl
          · exact absurd (List.isEmpty_iff.mp hpe) hpat
        have hpre : pat.isPrefixOf (c :: s') = false := by
          cases hq : pat.isPrefixOf (c :: s')
          · rfl
          · exact absurd (by simp [hne, hq]) hp
        have h' : containsSub s' pat = true := by
          simpa [containsSub, hpre] using h
        exact containsSub_cons c _ rep (ih s' (Nat.le_of_succ_le_succ hn) h')

/-! ## Claim C1 -/

/-- The first component of one rewriting step. -/
theorem applyDateFix_fst (acc : String × List FixRecord) (m : List Char) :
    (applyDateFix acc m).1 =
      pyReplace acc.1 ("segments.date = " ++ String.mk m) ("segments.date DURING " ++ String.mk m) :=
  rfl

/-- One rewriting step appends exactly one fix record. -/
theorem applyDateFix_snd_len (acc : String × List FixRecord) (m : List Char) :
    (applyDateFix acc m).2.length = acc.2.length + 1 := by
  simp [applyDateFix]

/-- Claim C1, counterexample: the query `"SEGMENTS.DATE = YESTERDAY"`
contains the phrase `segments.date = YESTERDAY` up to letter case, yet the
rewriter's output does not contain `segments.date DURING YESTERDAY`
(the regex matches case-insensitively but the replacement is a literal
case-sensitive `str.replace` of the lowercase phrase, so nothing is
replaced — while a fix record is still appended). -/
theorem c1_counterexample :
    strContains (strLower "SEGMENTS.DATE = YESTERDAY") (strLower "segments.date = YESTERDAY") = true ∧
    strContains (detect_and_fix_date_formats "SEGMENTS.DATE = YESTERDAY").1
      "segments.date DURING YESTERDAY" = false ∧
    (detect_and_fix_date_formats "SEGMENTS.DATE = YESTERDAY").2.length = 1 := by
  refine ⟨by decide, by decide, by decide⟩

/-- Claim C1, amended: (i) a query in which the date pattern finds no match
(in particular one already using `DURING`) is returned unchanged with an
empty fix list; (ii) a query that literally contains the exact-case phrase
`segments.date = YESTERDAY` and on which the pattern scan finds exactly the
single match `YESTERDAY` yields an output containing
`segments.date DURING YESTERDAY` and exactly one fix record. -/
theorem c1_date_rewriter (q : String) :
    (dateFindall q.toList = [] → detect_and_fix_date_formats q = (q, [])) ∧
    (dateFindall q.toList = ["YESTERDAY".toList] →
      strContains q "segments.date = YESTERDAY" = true →
      strContains (detect_and_fix_date_formats q).1 "segments.date DURING YESTERDAY" = true ∧
      (detect_and_fix_date_formats q).2.length = 1) := by
  constructor
  · intro h
    unfold detect_and_fix_date_formats
    rw [h]
    rfl
  · intro h hc
    unfold detect_and_fix_date_formats
    rw [h]
    simp only [List.foldl_cons, List.foldl_nil]
    have hold : ("segments.date = " ++ String.mk ("YESTERDAY".toList)) =
        "segments.date = YESTERDAY" := by decide
    have hnew : ("segments.date DURING " ++ String.mk ("YESTERDAY".toList)) =
        "segments.date DURING YESTERDAY" := by decide
    constructor
    · rw [applyDateFix_fst, hold, hnew]
      exact replaceAll_contains q.toList.length q.toList _ _ (le_refl _) (by decide) hc
    · rw [applyDateFix_snd_len]
      rfl

/-- Claim C1, witness: a concrete query with the exact-case phrase and a
single match is rewritten with one fix record. -/
theorem c1_date_rewriter_witness :
    strContains (detect_and_fix_date_formats "WHERE segments.date = YESTERDAY").1
      "segments.date DURING YESTERDAY" = true ∧
    (detect_and_fix_date_formats "WHERE segments.date = YESTERDAY").2.length = 1 :=
  (c1_date_rewriter "WHERE segments.date = YESTERDAY").2 (by decide) (by decide)

/-! ## Claims C3 and C9: the field projector -/

/-- The token fold of `parse_select_fields` equals the pair fold over the
dotted tokens. -/
theorem foldParse_eq (ts : List (List Char)) :
    ∀ acc, ts.foldl parseFieldStep acc = (dottedPairs ts).foldl insPair acc := by
  induction ts with
  | nil => intro acc; rfl
  | cons t ts ih =>
    intro acc
    cases h : t.contains '.' with
    | false =>
      have hm : ('.' : Char) ∉ t := by simpa using h
      have hd : dottedPairs (t :: ts) = dottedPairs ts := by
        simp [dottedPairs, hm]
      have hstep : parseFieldStep acc t = acc := by
        simp [parseFieldStep, hm]
      rw [List.foldl_cons, hd, hstep]
      exact ih _
    | true =>
      have hm : ('.' : Char) ∈ t := by simpa using h
      have hd : dottedPairs (t :: ts) =
          (String.mk (splitFirstDot t).1, String.mk (splitFirstDot t).2) :: dottedPairs ts := by
        simp [dottedPairs, hm]
      have hstep : parseFieldStep acc t =
          insPair acc (String.mk (splitFirstDot t).1, String.mk (splitFirstDot t).2) := by
        simp [parseFieldStep, insPair, hm]
      rw [List.foldl_cons, hd, List.foldl_cons, hstep]
      exact ih _

/-- Folding insertions over a dict whose head key is `e` collects all the
pairs keyed `e` into the head entry, in order, and treats the rest
independently. -/
theorem foldIns_cons (ps : List (String × String)) :
    ∀ (e : String) (v : List String) (acc : List (String × List String)),
      ps.foldl insPair ((e, v) :: acc) =
        (e, v ++ (ps.filter (fun p => p.1 == e)).map Prod.snd) ::
          (ps.filter (fun p => !(p.1 == e))).foldl insPair acc := by
  induction ps with
  | nil => intro e v acc; simp
  | cons p ps ih =>
    intro e v acc
    obtain ⟨e', a'⟩ := p
    by_cases h : e' = e
    · subst h
      have hstep : insPair ((e', v) :: acc) (e', a') = (e', v ++ [a']) :: acc := by
        simp [insPair, insertField]
      rw [List.foldl_cons, hstep, ih]
      simp [List.filter_cons]
    · have hbe : (e' == e) = false := by
        simp [h]
      have hstep : insPair ((e, v) :: acc) (e', a') = (e, v) :: insertField acc e' a' := by
        simp [insPair, insertField, Ne.symm h]
      rw [List.foldl_cons, hstep, ih]
      simp [List.filter_cons, hbe, insPair]

/-- The insertion fold from an empty dict is the spec-side grouping. -/
theorem foldIns_groupPairs : ∀ (n : Nat) (ps : List (String × String)), ps.length ≤ n →
    ps.foldl insPair [] = groupPairsAux n ps := by
  intro n
  induction n with
  | zero =>
    intro ps h
    have : ps = [] := List.length_eq_zero.mp (Nat.le_zero.mp h)
    subst this
    rfl
  | succ n ih =>
    intro ps h
    cases ps with
    | nil => rfl
    | cons p ps' =>
      obtain ⟨e, a⟩ := p
      have h0 : insPair [] (e, a) = [(e, [a])] := rfl
      rw [List.foldl_cons, h0, foldIns_cons ps' e [a] [],
          ih _ (le_trans (List.length_filter_le _ _) (Nat.le_of_succ_le_succ h))]
      simp [groupPairsAux]

/-- Claim C3: for every query the Field Projection Map equals the spec-side
description (entities in first-appearance order, attributes in appearance
order, each token split on its first dot, dotless tokens dropped), and the
two concrete examples evaluate as the claim states. -/
theorem c3_field_projection :
    (∀ q : String, parse_select_fields q = parse_select_fields_spec q) ∧
    parse_select_fields "SELECT campaign.name, metrics.clicks, campaign.id FROM campaign" =
      [("campaign", ["name", "id"]), ("metrics", ["clicks"])] ∧
    parse_select_fields "SELECT a.b.c, nodot FROM x" = [("a", ["b.c"])] := by
  refine ⟨fun q => ?_, by decide, by decide⟩
  unfold parse_select_fields parse_select_fields_spec
  rw [foldParse_eq]
  exact foldIns_groupPairs _ _ (le_refl _)

/-- Skipping fold: tokens without a dot never touch the accumulator. -/
theorem foldParse_skip (ts : List (List Char)) :
    ∀ acc, (∀ t ∈ ts, t.contains '.' = false) → ts.foldl parseFieldStep acc = acc := by
  induction ts with
  | nil => intro acc _; rfl
  | cons t ts ih =>
    intro acc h
    have ht : ('.' : Char) ∉ t := by simpa using h t (List.mem_cons_self t ts)
    have hstep : parseFieldStep acc t = acc := by
      simp [parseFieldStep, ht]
    rw [List.foldl_cons, hstep]
    exact ih acc (fun u hu => h u (List.mem_cons_of_mem _ hu))

/-- Claim C9: a query none of whose SELECT-clause tokens contains a dot
(in particular a query with no `SELECT ... FROM` span, whose token list is
empty) maps to the empty Field Projection Map, with no error raised. -/
theorem c9_projector_empty (q : String)
    (h : ∀ t ∈ selectTokens q, t.contains '.' = false) :
    parse_select_fields q = [] :=
  foldParse_skip (selectTokens q) [] h

/-- Claim C9, witness: a query whose only token is dotless projects to the
empty map. -/
theorem c9_projector_empty_witness : parse_select_fields "SELECT name FROM campaign" = [] :=
  c9_projector_empty "SELECT name FROM campaign" (by decide)

/-! ## Claim C7: format_customer_id -/

/-- Deleting a single-character pattern with `str.replace` is filtering. -/
theorem replaceDel_filter (n : Nat) (s : List Char) (c : Char) (hn : s.length ≤ n) :
    replaceAllAux n s [c] [] = s.filter (fun d => !(d == c)) := by
  induction n generalizing s with
  | zero =>
    have hs : s = [] := List.length_eq_zero.mp (Nat.le_zero.mp hn)
    subst hs
    rfl
  | succ n ih =>
    cases s with
    | nil => rfl
    | cons d s' =>
      by_cases h : c = d
      · subst h
        have hp : (!([c].isEmpty) && [c].isPrefixOf (c :: s')) = true := by
          simp [List.isPrefixOf]
        simp only [replaceAllAux, hp, if_true, List.nil_append]
        rw [show List.drop [c].length (c :: s') = s' from rfl,
          ih s' (Nat.le_of_succ_le_succ hn)]
        simp [List.filter_cons]
      · have hp : (!([c].isEmpty) && [c].isPrefixOf (d :: s')) = false := by
          simp [List.isPrefixOf, h]
        simp only [replaceAllAux, hp, if_false]
        rw [ih s' (Nat.le_of_succ_le_succ hn)]
        simp [List.filter_cons, Ne.symm h]

/-- List-level form: deleting `'-'` then `' '` is the combined filter. -/
theorem codeClean_list (l : List Char) :
    replaceAllAux (replaceAllAux l.length l ['-'] []).length
        (replaceAllAux l.length l ['-'] []) [' '] [] =
      l.filter (fun c => !(c == '-' || c == ' ')) := by
  rw [replaceDel_filter _ _ _ (le_refl _), replaceDel_filter _ _ _ (le_refl _),
    List.filter_filter]
  apply List.filter_congr
  intro c _
  cases hc : c == '-' <;> cases hs : c == ' ' <;> simp [hc, hs]

/-- The code's two `replace` calls compute exactly the dash-and-space
filter. -/
theorem pyReplace_clean (s : String) :
    (pyReplace (pyReplace s "-" "") " " "").toList = codeCleanId s :=
  codeClean_list s.toList

/-- Claim C7, counterexample: on `"1234567890\t"` the claim-side cleaning
(strip dashes and whitespace) yields the ten digits `"1234567890"`, so the
claim predicts success, yet `format_customer_id` fails: the code removes
only `'-'` and the plain space, not other whitespace. -/
theorem c7_counterexample :
    String.mk (claimCleanId "1234567890\t") = "1234567890" ∧
    format_customer_id "1234567890\t" =
      Except.error "Customer ID must be exactly 10 digits, got: 1234567890\t" :=
  ⟨by decide, rfl⟩

/-- Claim C7, amended: `format_customer_id` strips dashes and plain spaces
(not all whitespace) and succeeds with the cleaned string exactly when the
cleaned string is ten decimal digits; the four concrete examples of the
claim behave as stated. -/
theorem c7_format_customer_id :
    (∀ s r : String, format_customer_id s = Except.ok r ↔
      (r = String.mk (codeCleanId s) ∧ (codeCleanId s).all Char.isDigit = true ∧
        (codeCleanId s).length = 10)) ∧
    format_customer_id "123-456-7890" = Except.ok "1234567890" ∧
    format_customer_id "1234567890" = Except.ok "1234567890" ∧
    format_customer_id "12345" = Except.error "Customer ID must be exactly 10 digits, got: 12345" ∧
    format_customer_id "abcdefghij" =
      Except.error "Customer ID must be exactly 10 digits, got: abcdefghij" := by
  refine ⟨fun s r => ?_, rfl, rfl, rfl, rfl⟩
  unfold format_customer_id
  by_cases hs : s = ""
  · subst hs
    simp [codeCleanId]
  · have hs' : (s == "") = false := by simp [hs]
    simp only [hs', Bool.false_eq_true, if_false]
    have hclean := pyReplace_clean s
    by_cases hcond : (!(pyIsDigitList (pyReplace (pyReplace s "-" "") " " "").toList)
        || (pyReplace (pyReplace s "-" "") " " "").toList.length != 10) = true
    · simp only [hcond, if_true]
      constructor
      · intro habs
        exact absurd habs (by simp)
      · rintro ⟨-, hall, hlen⟩
        rw [hclean] at hcond
        have hne : codeCleanId s ≠ [] := by
          intro hnil
          rw [hnil] at hlen
          simp at hlen
        simp [pyIsDigitList, hall, hlen, List.isEmpty_iff, hne] at hcond
    · simp only [hcond, if_false]
      have hcond' := hcond
      rw [hclean] at hcond'
      simp only [Bool.or_eq_true, not_or, Bool.not_eq_true] at hcond'
      obtain ⟨hdig, hlen⟩ := hcond'
      have hdig' : pyIsDigitList (codeCleanId s) = true := by
        cases hx : pyIsDigitList (codeCleanId s)
        · rw [hx] at hdig; simp at hdig
        · rfl
      have hlen' : (codeCleanId s).length = 10 := by
        have := hlen
        cases hx : ((codeCleanId s).length != 10)
        · simpa using hx
        · rw [hx] at this; simp at this
      constructor
      · intro hok
        have hr : (pyReplace (pyReplace s "-" "") " " "") = r := by
          exact (Except.ok.injEq _ _).mp hok
        have hr' : r = String.mk (codeCleanId s) := by
          rw [← hr]
          apply String.ext
          exact hclean
        refine ⟨hr', ?_, hlen'⟩
        cases hx : (codeCleanId s).all Char.isDigit
        · simp [pyIsDigitList, hx] at hdig'
        · rfl
      · rintro ⟨hr, -, -⟩
        have : pyReplace (pyReplace s "-" "") " " "" = r := by
          rw [hr]
          apply String.ext
          exact hclean
        rw [this]
        simp

/-! ## Claims C8 and C10: preprocess_gaql_query -/

/-- Claim C8, counterexample: on `"SELECT campaign.name FROM campaign"`
the advisor returns exactly one suggestion (missing LIMIT), not two as the
claim states. -/
theorem c8_counterexample :
    preprocess_gaql_query "SELECT campaign.name FROM campaign" =
      Except.ok ⟨"SELECT campaign.name FROM campaign", "SELECT campaign.name FROM campaign",
        true, [limitSuggestion], 1⟩ ∧
    (1 : Nat) ≠ 2 :=
  ⟨rfl, by decide⟩

/-- Claim C8, amended: `preprocess_gaql_query "SELECT campaign.name FROM campaign"`
yields exactly one suggestion, the missing-LIMIT one, while the date-range
check and the expensive-metrics check do not fire because their trigger
substrings are absent from the query. -/
theorem c8_preprocess_example :
    preprocess_gaql_query "SELECT campaign.name FROM campaign" =
      Except.ok ⟨"SELECT campaign.name FROM campaign", "SELECT campaign.name FROM campaign",
        true, [limitSuggestion], 1⟩ ∧
    strContains (strLower (pyStripStr "SELECT campaign.name FROM campaign"))
      "segments.date" = false ∧
    (expensive_metrics.any (fun m =>
      strContains (strLower (pyStripStr "SELECT campaign.name FROM campaign")) m)) = false :=
  ⟨rfl, by decide, by decide⟩

/-- Claim C10: for every query passing basic validation the advisor returns
the success envelope with `is_valid` true, `suggestion_count` equal to the
length of the suggestion list, the original query echoed unchanged and the
optimized query equal to the whitespace-stripped input. -/
theorem c10_preprocess_envelope (q : String) (h : validate_gaql_query q = true) :
    ∃ env, preprocess_gaql_query q = Except.ok env ∧ env.is_valid = true ∧
      env.suggestion_count = env.suggestions.length ∧ env.original_query = q ∧
      env.optimized_query = pyStripStr q := by
  simp only [preprocess_gaql_query, h, Bool.not_true, Bool.false_eq_true, if_false]
  exact ⟨_, rfl, rfl, rfl, rfl, rfl⟩

/-- Claim C10, witness at a concrete valid query. -/
theorem c10_preprocess_envelope_witness :
    ∃ env, preprocess_gaql_query "SELECT campaign.id FROM campaign" = Except.ok env ∧
      env.is_valid = true ∧
      env.suggestion_count = env.suggestions.length ∧
      env.original_query = "SELECT campaign.id FROM campaign" ∧
      env.optimized_query = pyStripStr "SELECT campaign.id FROM campaign" :=
  c10_preprocess_envelope "SELECT campaign.id FROM campaign" (by decide)

/-! ## Claims C2 and C6: the executor envelope -/

/-- Claim C2: every envelope `_execute_gaql_async` returns has exactly one
of the two shapes, distinguished by the presence of the `error` key (the
disjuncts are mutually exclusive through their first components), and in
the success shape `auto_fixes_applied` is present exactly when the fix-record
list is non-empty. -/
theorem c2_envelope_dichotomy (q cid : String) (collab : Collab) :
    errorShape (jsonKeys (_execute_gaql_async q cid collab).1) ∨
    (successShape (jsonKeys (_execute_gaql_async q cid collab).1) ∧
      (("auto_fixes_applied" ∈ jsonKeys (_execute_gaql_async q cid collab).1) ↔
        (detect_and_fix_date_formats q).2 ≠ [])) := by
  simp only [_execute_gaql_async]
  split
  · exact Or.inl (by simp [errorShape, jsonKeys])
  · split
    · exact Or.inl (by simp [errorShape, jsonKeys])
    · split
      · exact Or.inl (by simp [errorShape, jsonKeys])
      · split
        · exact Or.inl (by simp [errorShape, jsonKeys])
        · split
          · exact Or.inl (by simp [errorShape, jsonKeys])
          · exact Or.inl (by simp [errorShape, jsonKeys])
          · split
            · rename_i heq
              exact Or.inr ⟨by simp [successShape, jsonKeys], by simp [jsonKeys, heq]⟩
            · rename_i heq
              exact Or.inr ⟨by simp [successShape, jsonKeys], by simp [jsonKeys, heq]⟩

/-- Claim C6: a query failing basic validation short-circuits to the
invalid-format error envelope with the remote region (client construction
and the search call) never reached. -/
theorem c6_validation_short_circuit (q cid : String) (collab : Collab)
    (h : validate_gaql_query q = false) :
    _execute_gaql_async q cid collab =
      ([("error", JValue.jstr "Invalid GAQL query format"), ("query", JValue.jstr q)], false) := by
  simp only [_execute_gaql_async, h, Bool.not_false, if_true]

/-- Claim C6, witness: `"DELETE FROM campaign"` fails validation and the
collaborator is never reached. -/
theorem c6_validation_short_circuit_witness :
    _execute_gaql_async "DELETE FROM campaign" "1234567890"
        ⟨Except.ok (), SearchOutcome.rows []⟩ =
      ([("error", JValue.jstr "Invalid GAQL query format"),
        ("query", JValue.jstr "DELETE FROM campaign")], false) :=
  c6_validation_short_circuit "DELETE FROM campaign" "1234567890"
    ⟨Except.ok (), SearchOutcome.rows []⟩ (by decide)

/-! ## Claim C4: the response flattener -/

/-- Setting a key makes it found. -/
theorem lookup_dictSet_self {α : Type} (d : List (String × α)) (k : String) (v : α) :
    lookupStr (dictSet d k v) k = some v := by
  induction d with
  | nil => simp [dictSet, lookupStr]
  | cons p rest ih =>
    obtain ⟨k', v'⟩ := p
    by_cases h : k' = k
    · subst h
      simp [dictSet, lookupStr]
    · simp [dictSet, lookupStr, h, ih]

/-- Setting a key leaves other lookups unchanged. -/
theorem lookup_dictSet_ne {α : Type} (d : List (String × α)) (k : String) (v : α)
    (k' : String) (h : k' ≠ k) :
    lookupStr (dictSet d k v) k' = lookupStr d k' := by
  induction d with
  | nil => simp [dictSet, lookupStr, Ne.symm h]
  | cons p rest ih =>
    obtain ⟨k'', v''⟩ := p
    by_cases h2 : k'' = k
    · subst h2
      simp [dictSet, lookupStr, Ne.symm h]
    · simp [dictSet, lookupStr, h2, ih]

/-- The keys after setting `k` are the old keys plus `k`. -/
theorem mem_keys_dictSet {α : Type} (d : List (String × α)) (k : String) (v : α)
    (a : String) :
    a ∈ (dictSet d k v).map Prod.fst ↔ a ∈ d.map Prod.fst ∨ a = k := by
  induction d with
  | nil => simp [dictSet]
  | cons p rest ih =>
    obtain ⟨k', v'⟩ := p
    by_cases h : k' = k
    · subst h
      simp [dictSet]
      tauto
    · simp [dictSet, h, ih]
      tauto

/-- The loop body always writes `entVal`. -/
theorem entityFieldStep_eq (entity : PEntity) (acc : List (String × JValue)) (fn : String) :
    entityFieldStep entity acc fn = dictSet acc fn (entVal entity fn) := by
  unfold entityFieldStep entVal
  cases lookupStr entity fn <;> rfl

/-- Lookup in the entity fold: requested attributes map to `entVal`, others
fall through to the accumulator. -/
theorem flattenEntity_lookup (fns : List String) (entity : PEntity) :
    ∀ acc a, lookupStr (fns.foldl (entityFieldStep entity) acc) a =
      if a ∈ fns then some (entVal entity a) else lookupStr acc a := by
  induction fns with
  | nil => intro acc a; simp
  | cons fn fns ih =>
    intro acc a
    rw [List.foldl_cons, ih]
    by_cases hmem : a ∈ fns
    · simp [hmem, List.mem_cons]
    · by_cases hfa : a = fn
      · subst hfa
        simp [hmem, entityFieldStep_eq, lookup_dictSet_self]
      · simp [hmem, hfa, entityFieldStep_eq, lookup_dictSet_ne _ _ _ _ hfa]

/-- Keys of the entity fold: the accumulator's keys plus the requested
attributes. -/
theorem flattenEntity_keys (fns : List String) (entity : PEntity) :
    ∀ acc a, a ∈ (fns.foldl (entityFieldStep entity) acc).map Prod.fst ↔
      a ∈ acc.map Prod.fst ∨ a ∈ fns := by
  induction fns with
  | nil => intro acc a; simp
  | cons fn fns ih =>
    intro acc a
    rw [List.foldl_cons, ih, entityFieldStep_eq, mem_keys_dictSet]
    simp [List.mem_cons]
    tauto

/-- Keys of the row fold come from the accumulator or the requested map. -/
theorem flattenRow_keys_sub (req : List (String × List String)) (row : PRow) :
    ∀ acc a, a ∈ (req.foldl (rowEntityStep row) acc).map Prod.fst →
      a ∈ acc.map Prod.fst ∨ a ∈ req.map Prod.fst := by
  induction req with
  | nil => intro acc a h; exact Or.inl h
  | cons p req ih =>
    intro acc a h
    rw [List.foldl_cons] at h
    rcases ih _ a h with h1 | h2
    · cases hl : lookupStr row p.1 with
      | none =>
        simp only [rowEntityStep, hl] at h1
        exact Or.inl h1
      | some ent =>
        simp only [rowEntityStep, hl] at h1
        rw [mem_keys_dictSet] at h1
        rcases h1 with h1 | h1
        · exact Or.inl h1
        · subst h1
          exact Or.inr (by simp)
    · exact Or.inr (by simp [h2])

/-- An entity absent on the row never enters the flattened row. -/
theorem flattenRow_absent (req : List (String × List String)) (row : PRow) :
    ∀ acc e, lookupStr row e = none → e ∉ acc.map Prod.fst →
      e ∉ (req.foldl (rowEntityStep row) acc).map Prod.fst := by
  induction req with
  | nil => intro acc e _ hacc; exact hacc
  | cons p req ih =>
    intro acc e hrow hacc
    rw [List.foldl_cons]
    apply ih _ _ hrow
    cases hl : lookupStr row p.1 with
    | none =>
      simp only [rowEntityStep, hl]
      exact hacc
    | some ent =>
      simp only [rowEntityStep, hl]
      rw [mem_keys_dictSet]
      rintro (h1 | h1)
      · exact hacc h1
      · subst h1
        simp [hl] at hrow
  
/-- Entities outside the requested map never change the lookup. -/
theorem flattenRow_skip_lookup (req : List (String × List String)) (row : PRow) :
    ∀ acc e, e ∉ req.map Prod.fst →
      lookupStr (req.foldl (rowEntityStep row) acc) e = lookupStr acc e := by
  induction req with
  | nil => intro acc e _; rfl
  | cons p req ih =>
    intro acc e h
    have hne : e ≠ p.1 := fun he => h (by simp [he])
    have h' : e ∉ req.map Prod.fst := fun hm => h (by simp [hm])
    rw [List.foldl_cons, ih _ _ h']
    cases hl : lookupStr row p.1 with
    | none => simp [rowEntityStep, hl]
    | some ent => simp [rowEntityStep, hl, lookup_dictSet_ne _ _ _ _ hne]

/-- A requested entity present on the row maps to its flattened entity. -/
theorem flattenRow_present (req : List (String × List String)) (row : PRow) :
    ∀ acc e fns ent, (req.map Prod.fst).Nodup → (e, fns) ∈ req →
      lookupStr row e = some ent →
      lookupStr (req.foldl (rowEntityStep row) acc) e =
        some (JValue.jobj (flattenEntity ent fns)) := by
  induction req with
  | nil =>
    intro acc e fns ent _ hmem _
    exact absurd hmem (List.not_mem_nil _)
  | cons p req ih =>
    intro acc e fns ent hnd hmem hrow
    rw [List.map_cons, List.nodup_cons] at hnd
    obtain ⟨hp1, hnd'⟩ := hnd
    rw [List.foldl_cons]
    rcases List.mem_cons.mp hmem with heq | hmem'
    · subst heq
      rw [flattenRow_skip_lookup req row _ _ hp1]
      simp only [rowEntityStep, hrow]
      exact lookup_dictSet_self _ _ _
    · exact ih _ e fns ent hnd' hmem' hrow

/-- Claim C4: the flattened row contains only requested entity keys; an
entity absent on the row is skipped entirely; for a present entity the
per-entity key set is exactly the requested attribute set, with an explicit
null for every requested attribute absent on the entity. -/
theorem c4_response_flattener (requested : List (String × List String)) (row : PRow)
    (hnd : (requested.map Prod.fst).Nodup) :
    (∀ a, a ∈ (flattenRow requested row).map Prod.fst → a ∈ requested.map Prod.fst) ∧
    (∀ e, lookupStr row e = none → e ∉ (flattenRow requested row).map Prod.fst) ∧
    (∀ e fns ent, (e, fns) ∈ requested → lookupStr row e = some ent →
      lookupStr (flattenRow requested row) e = some (JValue.jobj (flattenEntity ent fns)) ∧
      (∀ a, a ∈ (flattenEntity ent fns).map Prod.fst ↔ a ∈ fns) ∧
      (∀ a, a ∈ fns → lookupStr ent a = none →
        lookupStr (flattenEntity ent fns) a = some JValue.jnull)) := by
  refine ⟨?_, ?_, ?_⟩
  · intro a ha
    rcases flattenRow_keys_sub requested row [] a ha with h | h
    · simp at h
    · exact h
  · intro e hrow
    exact flattenRow_absent requested row [] e hrow (by simp)
  · intro e fns ent hmem hrow
    refine ⟨flattenRow_present requested row [] e fns ent hnd hmem hrow, ?_, ?_⟩
    · intro a
      have h1 := flattenEntity_keys fns ent [] a
      unfold flattenEntity
      rw [h1]
      simp
    · intro a hafns hent
      have h1 := flattenEntity_lookup fns ent [] a
      unfold flattenEntity
      rw [h1, if_pos hafns]
      unfold entVal
      rw [hent]

/-- Claim C4, witness: a concrete one-entity map against a row carrying
only the `name` attribute. -/
theorem c4_response_flattener_witness :
    (∀ a, a ∈ (flattenRow [("campaign", ["name", "id"])]
        [("campaign", [("name", PValue.pstr "Brand")])]).map Prod.fst →
      a ∈ ([("campaign", ["name", "id"])] : List (String × List String)).map Prod.fst) ∧
    (∀ e, lookupStr [("campaign", [("name", PValue.pstr "Brand")])] e = none →
      e ∉ (flattenRow [("campaign", ["name", "id"])]
        [("campaign", [("name", PValue.pstr "Brand")])]).map Prod.fst) ∧
    (∀ e fns ent, (e, fns) ∈ ([("campaign", ["name", "id"])] : List (String × List String)) →
      lookupStr [("campaign", [("name", PValue.pstr "Brand")])] e = some ent →
      lookupStr (flattenRow [("campaign", ["name", "id"])]
        [("campaign", [("name", PValue.pstr "Brand")])]) e =
        some (JValue.jobj (flattenEntity ent fns)) ∧
      (∀ a, a ∈ (flattenEntity ent fns).map Prod.fst ↔ a ∈ fns) ∧
      (∀ a, a ∈ fns → lookupStr ent a = none →
        lookupStr (flattenEntity ent fns) a = some JValue.jnull)) :=
  c4_response_flattener [("campaign", ["name", "id"])]
    [("campaign", [("name", PValue.pstr "Brand")])] (by decide)

/-! ## Claim C5: totality of the value conversion -/

/-- Claim C5: the value normalization is total — on every value of the
modelled universe it returns a `JValue`, every `JValue` serializes to a
string, and a value matching none of the earlier cases takes the textual
fallback. -/
theorem c5_convert_total (v : PValue) :
    (∃ s : String, serializeJson (_convert_protobuf_value v) = s) ∧
    (isFallbackValue v = true →
      _convert_protobuf_value v = JValue.jstr (pyFallbackStr v)) := by
  refine ⟨⟨_, rfl⟩, ?_⟩
  intro h
  cases v <;> simp_all [isFallbackValue, _convert_protobuf_value]

/-- Claim C5, witness at a concrete fallback value. -/
theorem c5_convert_total_witness :
    (∃ s : String, serializeJson (_convert_protobuf_value (PValue.pother "x")) = s) ∧
    (isFallbackValue (PValue.pother "x") = true →
      _convert_protobuf_value (PValue.pother "x") =
        JValue.jstr (pyFallbackStr (PValue.pother "x"))) :=
  c5_convert_total (PValue.pother "x")
